import Mathlib

/-!
ProductSync feedback pipeline — verification development.

Shallow embedding of the feedback-processing pipeline of the ProductSync
repository, together with proofs and refutations of the specification's
claims about it.

Sources embedded below:
* `src/app/workers/ingest_worker.py`   — deduplicated ingestion
* `src/app/models/feedback.py`         — the feedback table declaration
* `src/app/nlp/preprocessor.py`        — the text-cleaning entry branch
* `src/app/workers/nlu_worker.py`      — online clustering
* `src/app/nlp/embedder.py`            — similarity (dynamic semantics)
* `src/app/workers/priority_worker.py` — priority scoring
* `src/app/workers/actions_worker.py`  — escalation
* `src/app/models/initiative.py`       — the initiative table declaration

Python floats are modelled as exact rationals (`ℚ`) except where a square
root is computed (`np.std`), which is modelled in `ℝ` with `Real.sqrt`.
Database sessions are modelled as explicit state records; external
collaborators (Redis, the embedding model, the spaCy cleaner, the JIRA
REST client) are parameters of the functions that invoke them.
-/

namespace ProductSync

/-! ## Ingestion (src/app/workers/ingest_worker.py)

`IngestWorker.process_feedback(payload)`:
* reads `payload['source']` and `payload['source_msg_id']` (a missing key
  raises `KeyError`, caught by the enclosing `except`, which rolls the
  database back and returns `False`);
* `redis.setnx("dupe:<source>:<msg_id>", 1)` — if the key is already live
  the call returns `False` ("Duplicate feedback detected") without
  touching the database;
* on a fresh claim, `redis.expire(key, 7*24*3600)`;
* cleans `payload.get('text', '')`;
* constructs `Feedback(source=…, source_msg_id=…, author_id=payload['author_id'],
  text_raw=…, text_clean=…, status='new')` — a missing `author_id` raises
  `KeyError` here, after the dedup key was already claimed;
* `db.add`/`db.commit` — a storage failure is caught, rolled back, and
  reported as `False`; the Redis key is not released.

Time is epoch seconds (`ℕ`).  The Redis key space is a list of
`(key, expiry)` pairs: `SETNX` fails exactly when an entry with the same
key and an expiry in the future is present, and claiming replaces any
expired entry for the key. -/

/-- One persisted row of the `feedback` table, with the columns the
ingest worker sets (`id`/`created_at`/`product_area_id`/`cluster_id`/
`priority_score` are storage defaults, not set at ingestion). -/
structure FeedbackRow where
  source : String
  sourceMsgId : String
  authorId : String
  textRaw : String
  textClean : String
  status : String
deriving DecidableEq, Repr

/-- Shared durable state touched by the ingest worker: the Redis dedup
key space and the `feedback` table. -/
structure IngestState where
  dedup : List ((String × String) × ℕ)
  rows : List FeedbackRow
deriving DecidableEq, Repr

/-- The canonical ingestion payload, a JSON dict: every field may be
absent (`payload['k']` on an absent key raises `KeyError`). -/
structure Payload where
  source : Option String
  sourceMsgId : Option String
  authorId : Option String
  text : Option String
deriving DecidableEq, Repr

/-- Return value of `process_feedback`.  The Python function returns
`True` for `persisted` and `False` for both other outcomes; the log
record distinguishes them. -/
inductive IngestOutcome where
  | persisted
  | duplicate
  | failed (reason : String)
deriving DecidableEq, Repr

/-- The 7-day dedup retention window, in seconds
(`7 * 24 * 3600` in `ingest_worker.py`). -/
def retentionWindow : ℕ := 7 * 24 * 3600

/-- A dedup key is live at time `now` iff an entry for it has an expiry
strictly in the future (Redis deletes a key whose TTL elapsed). -/
def keyLive (dedup : List ((String × String) × ℕ)) (k : String × String) (now : ℕ) : Prop :=
  ∃ e ∈ dedup, e.1 = k ∧ now < e.2

instance (dedup : List ((String × String) × ℕ)) (k : String × String) (now : ℕ) :
    Decidable (keyLive dedup k now) := by
  unfold keyLive; infer_instance

/-- `SETNX` followed by `EXPIRE key retentionWindow`: any (necessarily
expired) entry for the key is replaced. -/
def claimKey (dedup : List ((String × String) × ℕ)) (k : String × String) (now : ℕ) :
    List ((String × String) × ℕ) :=
  (k, now + retentionWindow) :: dedup.filter (fun e => e.1 ≠ k)

/-- Python falsiness of `text.strip()`: the string consists only of
whitespace (or is empty). -/
def isBlank (s : String) : Bool := s.toList.all Char.isWhitespace

/-- `TextPreprocessor.preprocess` (src/app/nlp/preprocessor.py): empty or
whitespace-only text (`if not text or not text.strip():`) short-circuits
to the empty string; otherwise the spaCy-based cleaning runs (an
external capability, the parameter `cleanExt`). -/
def preprocess (cleanExt : String → String) (text : String) : String :=
  if isBlank text then "" else cleanExt text

/-- `IngestWorker.process_feedback`.  `persistOk` models whether the
`db.add`/`db.commit` pair succeeds (storage is an external collaborator
that may fail); `now` is the current time in epoch seconds. -/
def processFeedback (cleanExt : String → String) (persistOk : Bool) (now : ℕ)
    (p : Payload) (st : IngestState) : IngestOutcome × IngestState :=
  match p.source, p.sourceMsgId with
  | some src, some mid =>
    if keyLive st.dedup (src, mid) now then
      (.duplicate, st)
    else
      let st1 : IngestState := { st with dedup := claimKey st.dedup (src, mid) now }
      let textRaw := p.text.getD ""
      let textClean := preprocess cleanExt textRaw
      match p.authorId with
      | some aid =>
        if persistOk then
          (.persisted, { st1 with
            rows := st1.rows ++ [⟨src, mid, aid, textRaw, textClean, "new"⟩] })
        else
          (.failed "storage", st1)
      | none => (.failed "KeyError author_id", st1)
  | _, _ => (.failed "KeyError", st)

/-! ## The feedback table declaration (src/app/models/feedback.py)

`Feedback.__table_args__` is the tuple
`({'postgresql_partition_by': 'LIST (source)'},)` — a single dialect
option and nothing else, despite the comment
"Ensure idempotency as specified in README" directly above it. -/

/-- An element of a SQLAlchemy `__table_args__` tuple, as far as this
model needs to distinguish: a `UniqueConstraint(cols…)` or a dialect
option entry of the trailing dict. -/
inductive TableArg where
  | uniqueConstraint (cols : List String)
  | dialectOption (key value : String)
deriving DecidableEq, Repr

/-- `Feedback.__table_args__` as declared in the source: only the
PostgreSQL partition option; no `UniqueConstraint`. -/
def feedbackTableArgs : List TableArg :=
  [.dialectOption "postgresql_partition_by" "LIST (source)"]

/-- The column lists of the unique constraints declared by a table-args
tuple. -/
def uniqueConstraints (args : List TableArg) : List (List String) :=
  args.filterMap fun a =>
    match a with
    | .uniqueConstraint cols => some cols
    | .dialectOption _ _ => none

/-- Projection of a feedback row on a column name (the string-valued
columns the ingest worker writes). -/
def colValue (r : FeedbackRow) : String → String
  | "source" => r.source
  | "source_msg_id" => r.sourceMsgId
  | "author_id" => r.authorId
  | "text_raw" => r.textRaw
  | "text_clean" => r.textClean
  | "status" => r.status
  | _ => ""

/-- Storage accepts a table content iff every declared unique constraint
holds of it: the projections of the rows on the constrained columns are
pairwise distinct. -/
def storageAccepts (args : List TableArg) (rows : List FeedbackRow) : Prop :=
  ∀ cols ∈ uniqueConstraints args, (rows.map fun r => cols.map (colValue r)).Nodup

instance (args : List TableArg) (rows : List FeedbackRow) :
    Decidable (storageAccepts args rows) := by
  unfold storageAccepts; infer_instance

/-- The empty durable state: no dedup keys claimed, no rows. -/
def ingestInit : IngestState := ⟨[], []⟩

/-! ## Clustering (src/app/workers/nlu_worker.py)

`NLUWorker._assign_to_cluster(text, embedding)` iterates over
`db.query(Cluster).all()`, computes
`self.embedder.similarity(text, cluster_embedding)` for every cluster
whose `centroid_embedding` is non-null, keeps the strictly best
similarity seen so far (starting from `0` and no cluster), and then: if
the best similarity exceeds `0.7` and a best cluster exists, updates that
cluster (`_update_cluster`: centroid := elementwise mean of old centroid
and the new embedding, `size += 1`); otherwise creates a new cluster
(`_create_cluster`: the new embedding as centroid, `summary = text[:200]`,
`size = 1`, `confidence = 1.0`).  `process_feedback` then writes the
returned cluster id into `feedback.cluster_id` (guarded by Python
truthiness, i.e. only when the id is non-zero).

The record-level transitions (`_create_cluster`, `_update_cluster`, the
`cluster_id` write) are given first; the call
`self.embedder.similarity(text, cluster_embedding)` — which passes a
numpy array where `embed_text` expects a string, so that
`if not text or not text.strip():` raises `ValueError` for any array
with more than one element — is modelled by the *dynamic* semantics
below (`pyNot`, `embedText`, `similarityDyn`, `findBestDyn`,
`assignToClusterDyn`, `processOneDyn`), which makes that exception
explicit in `Except` and is the model all clustering claims are settled
against. -/

/-- One row of the `cluster` table (src/app/models/cluster.py), with the
columns the NLU worker reads and writes.  `centroid` is the unpickled
`centroid_embedding` (nullable). -/
structure ClusterRec where
  id : ℕ
  centroid : Option (List ℚ)
  summary : String
  size : ℕ
  confidence : ℚ
deriving DecidableEq, Repr

/-- The slice of a feedback row the NLU worker touches:
`id`, `text_clean` (processing aborts when null) and `cluster_id`. -/
structure FbItem where
  id : ℕ
  textClean : Option String
  clusterId : Option ℕ
deriving DecidableEq, Repr

/-- Database state seen by the NLU worker: the cluster table (in primary
key order, as returned by the query), the auto-increment counter that
will number the next created cluster, and the feedback rows. -/
structure NLUState where
  clusters : List ClusterRec
  nextClusterId : ℕ
  items : List FbItem
deriving DecidableEq, Repr

/-- Elementwise mean of two vectors:
`new_centroid = (old_embedding + new_embedding) / 2` — an equal-weight
average, not weighted by cluster size. -/
def avgVec (old new : List ℚ) : List ℚ :=
  List.zipWith (fun a b => (a + b) / 2) old new

/-- `NLUWorker._create_cluster`: a fresh cluster with the item's
embedding as centroid, the first 200 characters of its text as summary,
`size = 1` and `confidence = 1.0`; the returned id is the inserted row's
primary key. -/
def createCluster (emb : List ℚ) (text : String) (st : NLUState) : ℕ × NLUState :=
  (st.nextClusterId,
   { st with
      clusters := st.clusters ++ [⟨st.nextClusterId, some emb, String.mk (text.toList.take 200), 1, 1⟩],
      nextClusterId := st.nextClusterId + 1 })

/-- `NLUWorker._update_cluster`: guarded on a non-null centroid, replace
the centroid by the equal-weight average and increment `size`. -/
def updateCluster (emb : List ℚ) (c : ClusterRec) : ClusterRec :=
  match c.centroid with
  | some old => { c with centroid := some (avgVec old emb), size := c.size + 1 }
  | none => c

/-- Apply `_update_cluster` to the cluster with the given primary key. -/
def updateClusterIn (clusters : List ClusterRec) (cid : ℕ) (emb : List ℚ) :
    List ClusterRec :=
  clusters.map fun c => if c.id = cid then updateCluster emb c else c

/-- The similarity threshold (`similarity_threshold = 0.7`). -/
def similarityThreshold : ℚ := 7 / 10

/-- Write `cluster_id := cid` on the feedback row with primary key `i`
(`feedback.cluster_id = cluster_id; db.commit()`). -/
def setItemCluster (items : List FbItem) (i : ℕ) (cid : ℕ) : List FbItem :=
  items.map fun it => if it.id = i then { it with clusterId := some cid } else it

/-- Number of feedback rows whose `cluster_id` references cluster `cid`. -/
def memberCount (items : List FbItem) (cid : ℕ) : ℕ :=
  (items.filter fun it => it.clusterId = some cid).length

/-- The cluster/table invariant of the specification (§3): every
cluster's `size` equals the number of feedback rows referencing it;
together with the structural facts that make the state a well-formed
database image (distinct primary keys below the auto-increment counter,
non-zero ids, and referential integrity of `cluster_id`). -/
def Inv (st : NLUState) : Prop :=
  (∀ c ∈ st.clusters, c.size = memberCount st.items c.id)
  ∧ (st.clusters.map fun c => c.id).Nodup
  ∧ (∀ c ∈ st.clusters, c.id ≠ 0 ∧ c.id < st.nextClusterId)
  ∧ st.nextClusterId ≠ 0
  ∧ (st.items.map fun it => it.id).Nodup
  ∧ (∀ it ∈ st.items, ∀ cid, it.clusterId = some cid → ∃ c ∈ st.clusters, c.id = cid)

instance (st : NLUState) : Decidable (Inv st) := by
  unfold Inv; infer_instance

/-! ### Dynamic semantics of the similarity call (src/app/nlp/embedder.py)

`TextEmbedder.similarity(text1, text2)` calls `embed_text` on both
arguments, fudge-normalizes (`emb / (np.linalg.norm(emb) + 1e-8)`) and
returns the dot product.  `embed_text(text)` starts with
`if not text or not text.strip():`.  `_assign_to_cluster` passes the
*unpickled centroid array* as `text2`; `not <ndarray>` raises
`ValueError` for arrays with more than one element (numpy's ambiguous
truth value), so the call never reaches the normalization. -/

/-- A Python value that can reach `embed_text`: a string, or a numpy
vector (as passed by `_assign_to_cluster`). -/
inductive PyObj where
  | pstr (s : String)
  | parr (v : List ℚ)
deriving DecidableEq, Repr

/-- Python `not x` for the two shapes: for a string, truthiness is
non-emptiness; for a numpy array, an empty array is falsy (with a
deprecation warning), a one-element array has the truth value of its
element, and any longer array raises
`ValueError: The truth value of an array with more than one element is ambiguous`. -/
def pyNot : PyObj → Except String Bool
  | .pstr s => .ok (s = "")
  | .parr [] => .ok true
  | .parr [x] => .ok (x = 0)
  | .parr _ => .error "ValueError"

/-- Python `not x.strip()`: defined for strings; a numpy array has no
`strip` attribute, so reaching this raises `AttributeError`. -/
def pyStripEmpty : PyObj → Except String Bool
  | .pstr s => .ok (isBlank s)
  | .parr _ => .error "AttributeError"

/-- `TextEmbedder.embed_text`: empty/whitespace-only input returns the
zero vector of the model dimension; otherwise the external encoder `enc`
runs.  Passing a vector cannot reach the encoder without raising. -/
def embedText (enc : String → List ℚ) (dim : ℕ) (t : PyObj) : Except String (List ℚ) := do
  let b1 ← pyNot t
  if b1 then pure (List.replicate dim 0)
  else do
    let b2 ← pyStripEmpty t
    if b2 then pure (List.replicate dim 0)
    else
      match t with
      | .pstr s => pure (enc s)
      | .parr _ => .error "TypeError"

/-- `sum of squares` of a rational vector, in `ℝ`. -/
def sumSq (v : List ℚ) : ℝ := (v.map fun x => ((x : ℝ)) ^ 2).sum

/-- `np.linalg.norm`. -/
noncomputable def npNorm (v : List ℚ) : ℝ := Real.sqrt (sumSq v)

/-- `emb / (np.linalg.norm(emb) + 1e-8)`. -/
noncomputable def npNormalize (v : List ℚ) : List ℝ :=
  v.map fun x => (x : ℝ) / (npNorm v + 1 / 10 ^ 8)

/-- `np.dot` of two real vectors. -/
def npDot (a b : List ℝ) : ℝ := (List.zipWith (· * ·) a b).sum

/-- `TextEmbedder.similarity(text1, text2)`: embed both arguments, then
the dot product of the fudge-normalized embeddings. -/
noncomputable def similarityDyn (enc : String → List ℚ) (dim : ℕ) (t1 t2 : PyObj) :
    Except String ℝ := do
  let e1 ← embedText enc dim t1
  let e2 ← embedText enc dim t2
  pure (npDot (npNormalize e1) (npNormalize e2))

/-- The selection loop of `_assign_to_cluster` under the dynamic
semantics: each considered cluster triggers
`similarity(text, cluster_embedding)` with the centroid passed as the
second argument (the exact call in the source); an exception aborts the
enclosing `try` of `_assign_to_cluster`, which re-raises. -/
noncomputable def findBestDyn (enc : String → List ℚ) (dim : ℕ) (text : String) :
    List ClusterRec → ℝ × Option ClusterRec → Except String (ℝ × Option ClusterRec)
  | [], acc => .ok acc
  | c :: rest, (bs, bc) =>
    match c.centroid with
    | some ce => do
      let s ← similarityDyn enc dim (.pstr text) (.parr ce)
      if s > bs then findBestDyn enc dim text rest (s, some c)
      else findBestDyn enc dim text rest (bs, bc)
    | none => findBestDyn enc dim text rest (bs, bc)

/-- `NLUWorker._assign_to_cluster` under the dynamic semantics: an
`.error` value is the exception `process_feedback` catches (the item is
then left unassigned and the transaction rolled back). -/
noncomputable def assignToClusterDyn (enc : String → List ℚ) (dim : ℕ)
    (emb : List ℚ) (text : String) (st : NLUState) : Except String (ℕ × NLUState) :=
  if st.clusters.isEmpty then .ok (createCluster emb text st)
  else do
    match ← findBestDyn enc dim text st.clusters (0, none) with
    | (bs, some c) =>
      if bs > (similarityThreshold : ℝ) then
        .ok (c.id, { st with clusters := updateClusterIn st.clusters c.id emb })
      else .ok (createCluster emb text st)
    | (_, none) => .ok (createCluster emb text st)

/-- `NLUWorker.process_feedback(feedback_id)` under the dynamic
semantics: look the row up (absent ⟹ `False`, no change); abort when
`text_clean` is falsy (null or empty, `if not feedback.text_clean:`);
run `_assign_to_cluster` — an exception there is caught by
`process_feedback`'s `except`, the transaction rolled back, and `False`
returned, leaving the state unchanged; on success the returned cluster
id is persisted on the row when truthy (non-zero).  Label storage
(`_store_labels`) writes a disjoint table and is not modelled here. -/
noncomputable def processOneDyn (enc : String → List ℚ) (dim : ℕ) (emb : List ℚ)
    (i : ℕ) (st : NLUState) : NLUState :=
  match st.items.find? (fun it => it.id = i) with
  | none => st
  | some it =>
    match it.textClean with
    | none => st
    | some text =>
      if text = "" then st
      else
        match assignToClusterDyn enc dim emb text st with
        | .ok r =>
          if r.1 ≠ 0 then { r.2 with items := setItemCluster r.2.items i r.1 } else r.2
        | .error _ => st

/-- The reachable-state invariant: the bookkeeping invariant `Inv`
together with the fact that every persisted centroid is a vector of the
embedding model's dimension (centroids are only ever written from
`embed_text` outputs, which have the model's fixed dimension — 384 for
all-MiniLM-L6-v2 in the source). -/
def InvD (dim : ℕ) (st : NLUState) : Prop :=
  Inv st ∧ ∀ c ∈ st.clusters, ∃ v, c.centroid = some v ∧ v.length = dim

/-- The durable operations touching clusters and cluster references,
from the empty database: ingestion appends a feedback row with a fresh
primary key and a null `cluster_id` (the only way rows are created); the
NLU worker runs `process_feedback` on some row id with an embedding of
the model's dimension.  The poll loop imposes no further restriction —
in particular it may re-select an already-clustered row. -/
inductive ReachDyn (enc : String → List ℚ) (dim : ℕ) : NLUState → Prop where
  | init : ReachDyn enc dim ⟨[], 1, []⟩
  | ingest (st : NLUState) (it : FbItem) :
      ReachDyn enc dim st →
      it.clusterId = none →
      (∀ it2 ∈ st.items, it2.id ≠ it.id) →
      ReachDyn enc dim ⟨st.clusters, st.nextClusterId, st.items ++ [it]⟩
  | nlu (st : NLUState) (emb : List ℚ) (i : ℕ) :
      ReachDyn enc dim st →
      emb.length = dim →
      ReachDyn enc dim (processOneDyn enc dim emb i st)

/-! ## Priority scoring (src/app/workers/priority_worker.py)

`PriorityWorker.calculate_priority_score` combines five signals with the
weights `severity 0.3, reach 0.25, novelty 0.2, momentum 0.15,
confidence 0.1` and persists the result.  The database-derived
quantities each signal reads are gathered into `PriorityInput`. -/

/-- Substring occurrence over character lists: `pat` occurs at some
position of `s`. -/
def hasSubstr (pat : List Char) : List Char → Bool
  | [] => pat.isEmpty
  | c :: rest => pat.isPrefixOf (c :: rest) || hasSubstr pat rest

/-- Substring test (Python `pat in s`). -/
def substr (pat s : String) : Bool := hasSubstr pat.toList s.toList

/-- The per-label branch of `_calculate_severity`: the `elif` chain in
source order.  Each label contributes the value of the *first* pattern
occurring in its name. -/
def labelSeverityCode (name : String) : ℚ :=
  if substr "bug/crash" name then 9 / 10
  else if substr "bug/performance" name then 7 / 10
  else if substr "security" name then 95 / 100
  else if substr "bug" name then 6 / 10
  else if substr "ux/usability" name then 4 / 10
  else if substr "feature" name then 3 / 10
  else if substr "docs" name then 2 / 10
  else 0

/-- The keyword table `severity_indicators` of `_calculate_severity`, in
source (insertion) order. -/
def severityIndicators : List (String × ℚ) :=
  [("crash", 9 / 10), ("broken", 8 / 10), ("error", 7 / 10), ("fail", 7 / 10),
   ("slow", 6 / 10), ("lag", 6 / 10), ("freeze", 8 / 10), ("bug", 6 / 10),
   ("urgent", 8 / 10), ("critical", 9 / 10), ("blocking", 8 / 10)]

/-- Lowercased character list of a string (Python `text.lower()`). -/
def lowerChars (s : String) : List Char := s.toList.map Char.toLower

/-- Fold a keyword table over lowercased text, max-accumulating the
values of the keywords that occur
(`severity_score = max(severity_score, score)`). -/
def keywordFold (table : List (String × ℚ)) (textLower : List Char) (base : ℚ) : ℚ :=
  table.foldl (fun acc kv => if hasSubstr kv.1.toList textLower then max acc kv.2 else acc) base

/-- `PriorityWorker._calculate_severity`: max-accumulate the label rules
over the item's labels starting from `0.0`, then the keyword indicators
over `text_clean.lower()`, then `min(severity_score, 1.0)`. -/
def calcSeverity (labels : List String) (textClean : String) : ℚ :=
  let s1 := labels.foldl (fun acc n => max acc (labelSeverityCode n)) 0
  min (keywordFold severityIndicators (lowerChars textClean) s1) 1

/-- `channel_weights.get(feedback.source, 0.5)` of `_calculate_reach`:
slack 0.6, discord 1.0, notion 0.8, default 0.5. -/
def channelWeight (source : String) : ℚ :=
  if source = "slack" then 6 / 10
  else if source = "discord" then 1
  else if source = "notion" then 8 / 10
  else 1 / 2

/-- `dedup_multiplier` of `_calculate_reach`: with a cluster,
`min(cluster_size / 10.0, 2.0)`; without, `1.0`. -/
def dedupMultiplier (clusterSize : Option ℕ) : ℚ :=
  match clusterSize with
  | some n => min ((n : ℚ) / 10) 2
  | none => 1

/-- `PriorityWorker._calculate_reach`:
`min(channel_weight * dedup_multiplier * user_weight, 1.0)` with the
fixed `user_weight = 0.8`. -/
def calcReach (source : String) (clusterSize : Option ℕ) : ℚ :=
  min (channelWeight source * dedupMultiplier clusterSize * (8 / 10)) 1

/-- `PriorityWorker._calculate_novelty`: `1.0` without a cluster,
otherwise `1.0 / (1.0 + resolved_count)` over the resolved items of the
item's cluster. -/
def calcNovelty (resolvedCount : Option ℕ) : ℚ :=
  match resolvedCount with
  | some r => 1 / (1 + (r : ℚ))
  | none => 1

/-- `PriorityWorker._calculate_momentum`: without a cluster, `1.0`; with
one, compare the counts of cluster items created in the trailing 7 days
(`recent`) and the 7 days before that (`previous`): empty prior window
⟹ `1.0` iff any recent item, else `0.0`; otherwise clamp the growth
rate `(recent - previous)/previous` to `[-0.5, 1.0]` and rescale by
`(· + 0.5)/1.5`. -/
def calcMomentum (windowCounts : Option (ℕ × ℕ)) : ℚ :=
  match windowCounts with
  | none => 1
  | some (recent, previous) =>
    if previous = 0 then (if recent > 0 then 1 else 0)
    else (min (max (((recent : ℚ) - (previous : ℚ)) / (previous : ℚ)) (-(1 / 2))) 1 + 1 / 2) / (3 / 2)

/-- Population mean of a list of rationals (`np.mean`). -/
def meanQ (l : List ℚ) : ℚ := l.sum / l.length

/-- Population variance of a list of rationals (the square of `np.std`). -/
def varQ (l : List ℚ) : ℚ := ((l.map fun x => (x - meanQ l) ^ 2).sum) / l.length

/-- `np.std`: the square root of the population variance. -/
noncomputable def npStd (l : List ℚ) : ℝ := Real.sqrt ((varQ l : ℝ))

/-- `PriorityWorker._calculate_confidence`:
`0.5 * model_confidence + 0.3 * length_confidence + 0.2 * agreement`,
where `model_confidence` is the mean label score (0.5 when the item has
no labels), `length_confidence = min(len(text_clean)/100, 1.0)`, and
`agreement = 1 - np.std(scores)` when there are at least two labels,
`0.5` otherwise. -/
noncomputable def calcConfidence (labelScores : List ℚ) (textLen : ℕ) : ℝ :=
  (1 / 2 : ℝ) * ((if labelScores.isEmpty then (1 / 2 : ℚ) else meanQ labelScores : ℚ) : ℝ)
    + (3 / 10) * ((min ((textLen : ℚ) / 100) 1 : ℚ) : ℝ)
    + (1 / 5) * (if 1 < labelScores.length then 1 - npStd labelScores else (1 : ℝ) / 2)

/-- The database-derived inputs of one `calculate_priority_score` call:
the item's source, its labels with their scores, its clean text, and —
when it has a cluster — that cluster's size, resolved-item count and the
two trailing 7-day window counts. -/
structure PriorityInput where
  source : String
  labels : List String
  labelScores : List ℚ
  textClean : String
  cluster : Option (ℕ × ℕ × ℕ × ℕ)

/-- `PriorityWorker.calculate_priority_score`: the weighted combination
`0.3·severity + 0.25·reach + 0.2·novelty + 0.15·momentum +
0.1·confidence`, which is the value persisted into
`feedback.priority_score`. -/
noncomputable def calcPriorityScore (inp : PriorityInput) : ℝ :=
  (3 / 10 : ℝ) * ((calcSeverity inp.labels inp.textClean : ℚ) : ℝ)
    + (1 / 4) * ((calcReach inp.source (inp.cluster.map fun c => c.1) : ℚ) : ℝ)
    + (1 / 5) * ((calcNovelty (inp.cluster.map fun c => c.2.1) : ℚ) : ℝ)
    + (3 / 20) * ((calcMomentum (inp.cluster.map fun c => (c.2.2.1, c.2.2.2)) : ℚ) : ℝ)
    + (1 / 10) * calcConfidence inp.labelScores inp.textClean.length

/-! ### The specification's severity formula (for claim C5)

Written from the spec's words, to be compared with `calcSeverity`: a
rule table `security 0.95 > bug/crash 0.90 > bug/performance 0.70 >
generic bug 0.60 > ux 0.40 > feature 0.30 > docs 0.20` applied to the
item's labels, each label contributing the *maximum* of all rules
matching its name; the keyword table applied to the clean text; the
final severity the maximum of all contributions, clamped to `[0, 1]`. -/

/-- The label rule table as the spec lists it. -/
def labelRuleTable : List (String × ℚ) :=
  [("security", 95 / 100), ("bug/crash", 9 / 10), ("bug/performance", 7 / 10),
   ("bug", 6 / 10), ("ux", 4 / 10), ("feature", 3 / 10), ("docs", 2 / 10)]

/-- A label's contribution per the spec: the maximum over all rules whose
pattern occurs in the label name. -/
def labelSeveritySpec (name : String) : ℚ :=
  labelRuleTable.foldl (fun acc kv => if substr kv.1 name then max acc kv.2 else acc) 0

/-- The spec's severity: the maximum of all label-rule and keyword
contributions, clamped to `[0, 1]`. -/
def specSeverity (labels : List String) (textClean : String) : ℚ :=
  let s1 := labels.foldl (fun acc n => max acc (labelSeveritySpec n)) 0
  min (keywordFold severityIndicators (lowerChars textClean) s1) 1

/-- The label taxonomy seeded once at startup
(`FeedbackClassifier.default_labels` in src/app/nlp/classifier.py,
written to the `label` table by `NLUWorker._ensure_labels`; the human
override endpoint only attaches labels already present in that table). -/
def defaultLabels : List String :=
  ["bug/crash", "bug/performance", "feature/roadmap", "feature/quality-of-life",
   "ux/usability", "docs", "pricing", "security", "integration/notion",
   "integration/slack", "integration/discord"]

/-! ## Escalation (src/app/workers/actions_worker.py)

`ActionsWorker.process_actions(feedback_id)`: fetch the item; when
`_should_create_jira` holds, run `_create_jira_issue` (whose `try` block
swallows every exception it raises); then set `feedback.status =
'triaged'` and commit.

`_create_jira_issue`: when the item has a cluster id, look up an
Initiative whose `cluster_id` equals it; if one is found call
`_update_jira_issue` (which returns immediately unless JIRA is enabled
*and* the initiative has a `jira_key`, and otherwise only performs
external REST calls); if none is found — or the item has no cluster —
call `_create_new_initiative`, which persists
`Initiative(title, description, status='new', cluster_id=…)` and then,
if JIRA is enabled, calls the external create endpoint and stores the
returned key when one is returned (`None` on any failure).

The model below embeds this control flow over initiative records carrying
the attributes the worker manipulates.  The `initiative` table declared
in src/app/models/initiative.py is embedded as its column list — it
declares *no* `cluster_id` column (claim C4), so at runtime the lookup
filter raises `AttributeError` and the `Initiative(...)` constructor
raises `TypeError`; the dynamic layer (`initiativeClassAttr`,
`createNewInitiativeDyn`, `createJiraIssueDyn`, `processActionsDyn`)
derives those exceptions from the embedded column list, and the
escalation claims are settled against it. -/

/-- An initiative record as the actions worker manipulates it. -/
structure InitiativeRec where
  id : ℕ
  title : String
  description : String
  status : String
  clusterId : Option ℕ
  jiraKey : Option String
deriving DecidableEq, Repr

/-- The slice of a feedback row the actions worker touches. -/
structure ActionItem where
  id : ℕ
  clusterId : Option ℕ
  priorityScore : Option ℚ
  status : String
deriving DecidableEq, Repr

/-- Database state seen by the actions worker for one item: the
initiative table, its auto-increment counter, and the item. -/
structure ActionsState where
  initiatives : List InitiativeRec
  nextInitiativeId : ℕ
  item : ActionItem
deriving DecidableEq, Repr

/-- `ActionsWorker._should_create_jira`: requires JIRA to be configured;
then `feedback.priority_score and feedback.priority_score > threshold`
(Python truthiness: a null or `0.0` score falls through), else a
momentum spike of the item's cluster (`spike` stands for the result of
`_check_cluster_momentum_spike`). -/
def shouldCreateJira (jiraEnabled : Bool) (threshold : ℚ) (spike : Bool)
    (item : ActionItem) : Bool :=
  jiraEnabled &&
    ((match item.priorityScore with
      | some s => decide (s ≠ 0 ∧ s > threshold)
      | none => false)
     || (item.clusterId.isSome && spike))

/-- The record-level transition `_create_new_initiative` intends:
persist the initiative with a null `jira_key`; then, when JIRA is
enabled, attempt the external create call — `createKey` is its result
(`none` for any non-201 response or network failure) — and store the key
on success.  This is the would-be semantics *conditional on the
`Initiative(...)` constructor succeeding*; in the source it raises
`TypeError` first (see `createNewInitiativeDyn`, which derives that from
the declared column list). -/
def createNewInitiative (jiraEnabled : Bool) (createKey : Option String)
    (title description : String) (st : ActionsState) : ActionsState :=
  let ini : InitiativeRec :=
    ⟨st.nextInitiativeId, title, description, "new", st.item.clusterId, none⟩
  let st1 : ActionsState :=
    { st with initiatives := st.initiatives ++ [ini],
              nextInitiativeId := st.nextInitiativeId + 1 }
  if jiraEnabled then
    match createKey with
    | some k =>
      let withKey := st1.initiatives.map
        (fun i => if i.id = ini.id then { i with jiraKey := some k } else i)
      { st1 with initiatives := withKey }
    | none => st1
  else st1

/-- `ActionsWorker._update_jira_issue`: returns immediately when JIRA is
disabled or the initiative has no `jira_key`; otherwise it only issues
external REST calls (add comment, refresh labels) — no persisted state
changes either way. -/
def updateJiraIssue (_jiraEnabled : Bool) (_ini : InitiativeRec)
    (st : ActionsState) : ActionsState :=
  st

/-- The record-level dispatch `_create_jira_issue` intends: look up an
existing initiative by the item's cluster id (skipped when the item has
none) and route to the update or create path.  This is the would-be
semantics *conditional on the `Initiative.cluster_id` attribute access
succeeding*; in the source it raises `AttributeError` first (see
`createJiraIssueDyn`).  It exhibits the routing itself: a found
initiative without an external key goes to the no-op update path, never
the create path (claim C4). -/
def createJiraIssue (jiraEnabled : Bool) (createKey : Option String)
    (title description : String) (st : ActionsState) : ActionsState :=
  match st.item.clusterId with
  | some cid =>
    match st.initiatives.find? (fun i => i.clusterId = some cid) with
    | some ini => updateJiraIssue jiraEnabled ini st
    | none => createNewInitiative jiraEnabled createKey title description st
  | none => createNewInitiative jiraEnabled createKey title description st

/-- The columns of the `initiative` table as declared in
src/app/models/initiative.py: `id`, `jira_key`, `status`, `owner`,
`eta`, `title`, `description`, `created_at`, `updated_at` — and nothing
else. -/
def initiativeColumns : List String :=
  ["id", "jira_key", "status", "owner", "eta", "title", "description",
   "created_at", "updated_at"]

/-- The `Initiative` attributes the actions worker references: the
filter `Initiative.cluster_id == feedback.cluster_id` in
`_create_jira_issue` and the constructor keywords of
`_create_new_initiative` (`title`, `description`, `status`,
`cluster_id`), plus `jira_key` and `id` used on the created object. -/
def actionsWorkerInitiativeAttrs : List String :=
  ["cluster_id", "title", "description", "status", "jira_key", "id"]

/-- The keyword arguments of the call
`Initiative(title=…, description=…, status='new', cluster_id=…)` in
`_create_new_initiative`. -/
def initiativeCtorKwargs : List String := ["title", "description", "status", "cluster_id"]

/-- SQLAlchemy's declarative constructor accepts only declared columns
(the `Initiative` model declares no relationships) and raises
`TypeError` on any other keyword. -/
def declarativeCtorAccepts (columns kwargs : List String) : Bool :=
  kwargs.all fun k => columns.contains k

/-- Python attribute access on the `Initiative` class, as performed by
the lookup filter `Initiative.cluster_id == feedback.cluster_id`: an
undeclared attribute raises `AttributeError`. -/
def initiativeClassAttr (attr : String) : Except String String :=
  if initiativeColumns.contains attr then .ok attr else .error "AttributeError"

/-- `_create_new_initiative` under the dynamic semantics: the
`Initiative(...)` call is checked against the declared column list and
raises `TypeError` on an undeclared keyword, *before* `db.add`; the
local `except` logs and re-raises.  Only when construction succeeds does
the record-level transition `createNewInitiative` run. -/
def createNewInitiativeDyn (jiraEnabled : Bool) (createKey : Option String)
    (title descr : String) (st : ActionsState) : Except String ActionsState :=
  if declarativeCtorAccepts initiativeColumns initiativeCtorKwargs then
    .ok (createNewInitiative jiraEnabled createKey title descr st)
  else .error "TypeError"

/-- `_create_jira_issue` under the dynamic semantics: with a cluster id
the lookup filter touches the undeclared class attribute
`Initiative.cluster_id` (`AttributeError`); without one it calls
`_create_new_initiative` directly (`TypeError` at construction).  Its
own `except` swallows either exception, leaving the database
unchanged. -/
def createJiraIssueDyn (jiraEnabled : Bool) (createKey : Option String)
    (title descr : String) (st : ActionsState) : ActionsState :=
  let attempt : Except String ActionsState :=
    match st.item.clusterId with
    | some cid =>
      match initiativeClassAttr "cluster_id" with
      | .error e => .error e
      | .ok _ =>
        match st.initiatives.find? (fun i => i.clusterId = some cid) with
        | some ini => .ok (updateJiraIssue jiraEnabled ini st)
        | none => createNewInitiativeDyn jiraEnabled createKey title descr st
    | none => createNewInitiativeDyn jiraEnabled createKey title descr st
  match attempt with
  | .ok st2 => st2
  | .error _ => st

/-- `ActionsWorker.process_actions` under the dynamic semantics:
escalate when triggered (exceptions are swallowed inside
`_create_jira_issue`), then advance the item's status to `triaged` and
commit. -/
def processActionsDyn (jiraEnabled : Bool) (threshold : ℚ) (spike : Bool)
    (createKey : Option String) (title descr : String)
    (st : ActionsState) : ActionsState :=
  let st1 :=
    if shouldCreateJira jiraEnabled threshold spike st.item then
      createJiraIssueDyn jiraEnabled createKey title descr st
    else st
  { st1 with item := { st1.item with status := "triaged" } }

/-! ## Theorems -/

/-- A live dedup key makes `process_feedback` a pure no-op reporting a
duplicate. -/
theorem processFeedback_duplicate (clean : String → String) (pOk : Bool) (now : ℕ)
    (src mid : String) (paid ptxt : Option String) (st : IngestState)
    (h : keyLive st.dedup (src, mid) now) :
    processFeedback clean pOk now ⟨some src, some mid, paid, ptxt⟩ st
      = (.duplicate, st) := by
  simp [processFeedback, if_pos h]

/-- C2: cluster assignment does not follow the specified online algorithm
once any cluster with a centroid exists: the call
`self.embedder.similarity(text, cluster_embedding)` passes the unpickled
centroid array where `embed_text` expects a string, and
`not <multi-element ndarray>` raises `ValueError`, aborting
`_assign_to_cluster` before any similarity is compared.  Evaluated here
at a state holding one cluster with a 2-dimensional centroid: the
assignment errors instead of updating the cluster or creating a new
one. -/
theorem assign_raises_on_existing_centroid :
    assignToClusterDyn (fun _ => [1, 0]) 2 [1, 0] "the app crashes on startup"
      ⟨[⟨1, some [1, 0], "earlier crash report", 1, 1⟩], 2, []⟩
      = .error "ValueError" := by
  rfl

/-- C8: the lowest-id tie-break is never reached.  At a state with two
clusters of identical centroids (the claim's tie scenario), the first
similarity computation already raises `ValueError` (see C2), so `Assign`
selects no cluster at all instead of the lowest-id maximizer. -/
theorem tie_break_unreached :
    assignToClusterDyn (fun _ => [1, 0]) 2 [1, 0] "login button is broken"
      ⟨[⟨1, some [1, 0], "first report", 1, 1⟩, ⟨2, some [1, 0], "second report", 1, 1⟩],
        3, []⟩
      = .error "ValueError" := by
  rfl

/-- C4: the escalation engine's Initiative lookup and creation reference
a `cluster_id` attribute that the persisted `Initiative` model does not
declare, so the lookup raises `AttributeError` (and the constructor call
`Initiative(..., cluster_id=…)` raises `TypeError`) at runtime.
Additionally, when a looked-up initiative has no external key the code
takes the update path — which returns without creating anything — not
the create path the claim describes: evaluated at a state with a
null-key initiative for the item's cluster, `_create_jira_issue` leaves
the initiative table unchanged. -/
theorem escalation_initiative_column_missing :
    "cluster_id" ∈ actionsWorkerInitiativeAttrs
    ∧ "cluster_id" ∉ initiativeColumns
    ∧ (createJiraIssue true none "t" "d"
        ⟨[⟨1, "t0", "d0", "new", some 5, none⟩], 2, ⟨1, some 5, some 1, "new"⟩⟩).initiatives
      = [⟨1, "t0", "d0", "new", some 5, none⟩] := by
  refine ⟨by decide, by decide, rfl⟩

/-- C3: the deduplication gate does create exactly one row for repeated
submissions of one `(source, sourceMessageId)` key inside the retention
window — but the claimed redundant storage uniqueness constraint does
not exist: `Feedback.__table_args__` declares only a partition option
(despite its "Ensure idempotency" comment), so storage accepts two rows
with the identical key, which a `UniqueConstraint("source",
"source_msg_id")` would have rejected. -/
theorem dedup_gate_without_storage_constraint :
    (let p : Payload := ⟨some "discord", some "m1", some "u1", some "great app"⟩
     let r1 := processFeedback id true 0 p ingestInit
     let r2 := processFeedback id true 3600 p r1.2
     r1.1 = .persisted ∧ r2.1 = .duplicate ∧ r2.2.rows.length = 1)
    ∧ uniqueConstraints feedbackTableArgs = []
    ∧ storageAccepts feedbackTableArgs
        [⟨"discord", "m1", "u1", "x", "x", "new"⟩, ⟨"discord", "m1", "u2", "y", "y", "new"⟩]
    ∧ ¬ storageAccepts [.uniqueConstraint ["source", "source_msg_id"]]
        [⟨"discord", "m1", "u1", "x", "x", "new"⟩, ⟨"discord", "m1", "u2", "y", "y", "new"⟩] := by
  refine ⟨⟨by decide, by decide, by decide⟩, rfl, by decide, by decide⟩

/-- C9, counterexample: a canonical message that lacks a *non-empty*
source — it carries `source = ""` — is not rejected: ingestion claims the
dedup key and persists the row.  (Only a *missing* field raises
`KeyError` and is rejected.) -/
theorem ingest_empty_source_persisted :
    (processFeedback id true 0 ⟨some "", some "m1", some "u1", some "hi"⟩ ingestInit).1
      = .persisted
    ∧ (processFeedback id true 0 ⟨some "", some "m1", some "u1", some "hi"⟩ ingestInit).2.rows
      = [⟨"", "m1", "u1", "hi", "hi", "new"⟩] := by
  refine ⟨by decide, by decide⟩

/-- C9, amended: ingestion rejects (persists nothing for, and does not
report as persisted) every canonical message *missing* the source,
sourceMessageId, or authorId field — present-but-empty values are not
checked; a message whose text is empty is still persisted, with an empty
clean text and status `new`; and when the dedup claim fails the call is
a no-op returning the duplicate outcome without persisting anything and
without raising. -/
theorem ingest_validation_amended :
    (∀ (clean : String → String) (pOk : Bool) (now : ℕ) (p : Payload) (st : IngestState),
      p.source = none ∨ p.sourceMsgId = none ∨ p.authorId = none →
      (processFeedback clean pOk now p st).2.rows = st.rows ∧
      (processFeedback clean pOk now p st).1 ≠ .persisted)
    ∧ (∀ (clean : String → String) (now : ℕ) (st : IngestState) (src mid aid : String),
      ¬ keyLive st.dedup (src, mid) now →
      (processFeedback clean true now ⟨some src, some mid, some aid, some ""⟩ st).2.rows
        = st.rows ++ [⟨src, mid, aid, "", "", "new"⟩] ∧
      (processFeedback clean true now ⟨some src, some mid, some aid, some ""⟩ st).1
        = .persisted)
    ∧ (∀ (clean : String → String) (pOk : Bool) (now : ℕ) (st : IngestState)
        (src mid aid : String) (txt : Option String),
      keyLive st.dedup (src, mid) now →
      processFeedback clean pOk now ⟨some src, some mid, some aid, txt⟩ st
        = (.duplicate, st)) := by
  refine ⟨?_, ?_, ?_⟩
  · intro clean pOk now p st hmiss
    rcases p with ⟨psrc, pmid, paid, ptxt⟩
    rcases psrc with _ | src
    · exact ⟨rfl, by simp [processFeedback]⟩
    rcases pmid with _ | mid
    · exact ⟨rfl, by simp [processFeedback]⟩
    rcases paid with _ | aid
    · simp only [processFeedback]
      split
      · exact ⟨rfl, by simp⟩
      · exact ⟨rfl, by simp⟩
    · simp at hmiss
  · intro clean now st src mid aid hfresh
    simp only [processFeedback, if_neg hfresh]
    refine ⟨?_, rfl⟩
    have hblank : preprocess clean "" = "" := by
      simp [preprocess, isBlank]
    simp [hblank]
  · intro clean pOk now st src mid aid txt hdup
    exact processFeedback_duplicate clean pOk now src mid (some aid) txt st hdup

/-- Witness for C9's amended theorem: a payload missing its source is
rejected without persisting; a complete payload with empty text is
persisted with empty clean text and status `new`; a payload whose key is
already live is a no-op reported as duplicate. -/
theorem ingest_validation_amended_witness :
    ((processFeedback id true 0 ⟨none, some "m", some "u", some "t"⟩ ingestInit).2.rows = []
      ∧ (processFeedback id true 0 ⟨none, some "m", some "u", some "t"⟩ ingestInit).1
          ≠ .persisted)
    ∧ ((processFeedback id true 5 ⟨some "s", some "m", some "u", some ""⟩ ingestInit).2.rows
          = [] ++ [⟨"s", "m", "u", "", "", "new"⟩]
      ∧ (processFeedback id true 5 ⟨some "s", some "m", some "u", some ""⟩ ingestInit).1
          = .persisted)
    ∧ processFeedback id true 3 ⟨some "s", some "m", some "u", some "x"⟩
        ⟨[(("s", "m"), 10)], []⟩
        = (.duplicate, ⟨[(("s", "m"), 10)], []⟩) := by
  refine ⟨?_, ?_, ?_⟩
  · exact ingest_validation_amended.1 id true 0 ⟨none, some "m", some "u", some "t"⟩
      ingestInit (Or.inl rfl)
  · exact ingest_validation_amended.2.1 id 5 ingestInit "s" "m" "u" (by decide)
  · exact ingest_validation_amended.2.2 id true 3 ⟨[(("s", "m"), 10)], []⟩ "s" "m" "u"
      (some "x") (by decide)

/-- C10: the dedup key is claimed before the record is persisted.  When
persistence fails after a successful claim, no row is created, yet the
key is live for the rest of the 7-day window, so every resubmission of
the same `(source, sourceMessageId)` within the window — any author,
text, cleaner, or storage behaviour — is rejected as a duplicate without
persisting anything. -/
theorem dedup_key_claimed_before_persist :
    ∀ (clean : String → String) (now : ℕ) (st : IngestState)
      (src mid aid : String) (txt : Option String),
      ¬ keyLive st.dedup (src, mid) now →
      (processFeedback clean false now ⟨some src, some mid, some aid, txt⟩ st).1
        = .failed "storage"
      ∧ (processFeedback clean false now ⟨some src, some mid, some aid, txt⟩ st).2.rows
        = st.rows
      ∧ (∀ t2, t2 < now + retentionWindow →
          keyLive (processFeedback clean false now ⟨some src, some mid, some aid, txt⟩ st).2.dedup
            (src, mid) t2
          ∧ (∀ (clean2 : String → String) (pOk2 : Bool) (aid2 : String) (txt2 : Option String),
              processFeedback clean2 pOk2 t2 ⟨some src, some mid, some aid2, txt2⟩
                (processFeedback clean false now ⟨some src, some mid, some aid, txt⟩ st).2
              = (.duplicate,
                 (processFeedback clean false now ⟨some src, some mid, some aid, txt⟩ st).2))) := by
  intro clean now st src mid aid txt hfresh
  refine ⟨by simp [processFeedback, if_neg hfresh], by simp [processFeedback, if_neg hfresh], ?_⟩
  intro t2 ht2
  have hlive : keyLive
      (processFeedback clean false now ⟨some src, some mid, some aid, txt⟩ st).2.dedup
      (src, mid) t2 := by
    simp only [processFeedback, if_neg hfresh]
    exact ⟨((src, mid), now + retentionWindow), by simp [claimKey], rfl, ht2⟩
  exact ⟨hlive, fun clean2 pOk2 aid2 txt2 =>
    processFeedback_duplicate clean2 pOk2 t2 src mid (some aid2) txt2 _ hlive⟩

/-- Witness for C10: with a fresh key and failing storage at time 0, the
row set stays empty, the key is live at time 3600, and resubmitting the
same key then is rejected as a duplicate. -/
theorem dedup_key_claimed_before_persist_witness :
    ¬ keyLive ingestInit.dedup ("s", "m") 0
    ∧ ((processFeedback id false 0 ⟨some "s", some "m", some "u", some "t"⟩ ingestInit).1
        = .failed "storage"
      ∧ (processFeedback id false 0 ⟨some "s", some "m", some "u", some "t"⟩ ingestInit).2.rows
        = ingestInit.rows
      ∧ (∀ t2, t2 < 0 + retentionWindow →
          keyLive (processFeedback id false 0 ⟨some "s", some "m", some "u", some "t"⟩
              ingestInit).2.dedup ("s", "m") t2
          ∧ (∀ (clean2 : String → String) (pOk2 : Bool) (aid2 : String) (txt2 : Option String),
              processFeedback clean2 pOk2 t2 ⟨some "s", some "m", some aid2, txt2⟩
                (processFeedback id false 0 ⟨some "s", some "m", some "u", some "t"⟩
                  ingestInit).2
              = (.duplicate,
                 (processFeedback id false 0 ⟨some "s", some "m", some "u", some "t"⟩
                   ingestInit).2)))) :=
  ⟨by decide,
   dedup_key_claimed_before_persist id 0 ingestInit "s" "m" "u" (some "t") (by decide)⟩

/-- Each seeded taxonomy label contributes the same severity under the
code's first-match `elif` chain and the spec's max-over-matching-rules
table. -/
theorem labelSeverity_agree : ∀ n ∈ defaultLabels, labelSeverityCode n = labelSeveritySpec n := by
  intro n hn
  fin_cases hn <;>
    simp +decide only [labelSeverityCode, labelSeveritySpec, labelRuleTable,
      List.foldl_cons, List.foldl_nil] <;>
    norm_num [max_def]

/-- Folding `max` of two pointwise-equal contribution functions gives
equal results. -/
theorem foldl_max_congr (f g : String → ℚ) (l : List String)
    (h : ∀ n ∈ l, f n = g n) :
    ∀ init, l.foldl (fun acc n => max acc (f n)) init
      = l.foldl (fun acc n => max acc (g n)) init := by
  induction l with
  | nil => intro init; rfl
  | cons x xs ih =>
    intro init
    rw [List.foldl_cons, List.foldl_cons, h x (by simp)]
    exact ih (fun n hn => h n (by simp [hn])) _

/-- C5: for items labelled from the seeded taxonomy (the only labels the
system ever attaches), the severity computed by `_calculate_severity`
equals the spec's formula: the maximum over the label rule table and the
keyword table applied to the clean text, clamped to `[0, 1]`. -/
theorem severity_matches_spec (labels : List String) (text : String)
    (h : ∀ n ∈ labels, n ∈ defaultLabels) :
    calcSeverity labels text = specSeverity labels text := by
  unfold calcSeverity specSeverity
  rw [foldl_max_congr labelSeverityCode labelSeveritySpec labels
    (fun n hn => labelSeverity_agree n (h n hn)) 0]

/-- Witness for C5: a security-labelled item whose text mentions "SLOW";
both formulas agree on it. -/
theorem severity_matches_spec_witness :
    (∀ n ∈ ["security"], n ∈ defaultLabels)
    ∧ calcSeverity ["security"] "The login page is SLOW"
      = specSeverity ["security"] "The login page is SLOW" :=
  ⟨by decide, severity_matches_spec ["security"] "The login page is SLOW" (by decide)⟩

/-- Folding an accumulator-increasing step never drops below the initial
value. -/
theorem foldl_ge_init {α : Type} (f : ℚ → α → ℚ) (h : ∀ a x, a ≤ f a x) :
    ∀ (l : List α) (init : ℚ), init ≤ l.foldl f init
  | [], init => le_refl init
  | x :: xs, init => le_trans (h init x) (foldl_ge_init f h xs (f init x))

/-- The severity signal lies in `[0, 1]`: every contribution is
max-accumulated from `0.0`, and the result is clamped by
`min(·, 1.0)`. -/
theorem calcSeverity_bounds (labels : List String) (text : String) :
    0 ≤ calcSeverity labels text ∧ calcSeverity labels text ≤ 1 := by
  unfold calcSeverity
  refine ⟨le_min ?_ (by norm_num), min_le_right _ _⟩
  have h1 : (0 : ℚ) ≤ labels.foldl (fun acc n => max acc (labelSeverityCode n)) 0 :=
    foldl_ge_init _ (fun a x => le_max_left _ _) labels 0
  have h2 : labels.foldl (fun acc n => max acc (labelSeverityCode n)) 0
      ≤ keywordFold severityIndicators (lowerChars text)
          (labels.foldl (fun acc n => max acc (labelSeverityCode n)) 0) := by
    unfold keywordFold
    refine foldl_ge_init _ (fun a kv => ?_) _ _
    dsimp only
    split
    · exact le_max_left _ _
    · exact le_refl _
  linarith

/-- All channel weights are nonnegative. -/
theorem channelWeight_nonneg (s : String) : 0 ≤ channelWeight s := by
  unfold channelWeight
  split_ifs <;> norm_num

/-- The dedup multiplier is nonnegative. -/
theorem dedupMultiplier_nonneg (c : Option ℕ) : 0 ≤ dedupMultiplier c := by
  unfold dedupMultiplier
  cases c with
  | none => norm_num
  | some n => exact le_min (by positivity) (by norm_num)

/-- The reach signal lies in `[0, 1]`: a product of nonnegative factors
clamped by `min(·, 1.0)`. -/
theorem calcReach_bounds (s : String) (c : Option ℕ) :
    0 ≤ calcReach s c ∧ calcReach s c ≤ 1 := by
  unfold calcReach
  refine ⟨le_min ?_ (by norm_num), min_le_right _ _⟩
  have h1 := channelWeight_nonneg s
  have h2 := dedupMultiplier_nonneg c
  have : (0 : ℚ) ≤ channelWeight s * dedupMultiplier c := mul_nonneg h1 h2
  nlinarith

/-- The novelty signal lies in `(0, 1] ⊆ [0, 1]`. -/
theorem calcNovelty_bounds (r : Option ℕ) :
    0 ≤ calcNovelty r ∧ calcNovelty r ≤ 1 := by
  unfold calcNovelty
  cases r with
  | none => norm_num
  | some n =>
    constructor
    · positivity
    · apply div_le_one_of_le₀
      · have : (0 : ℚ) ≤ (n : ℚ) := by positivity
        linarith
      · positivity

/-- The momentum signal lies in `[0, 1]`: the growth rate is clamped to
`[-0.5, 1.0]` and affinely rescaled. -/
theorem calcMomentum_bounds (w : Option (ℕ × ℕ)) :
    0 ≤ calcMomentum w ∧ calcMomentum w ≤ 1 := by
  unfold calcMomentum
  cases w with
  | none => norm_num
  | some rp =>
    obtain ⟨r, p⟩ := rp
    dsimp only
    split
    · split <;> norm_num
    · have h1 : -(1 / 2 : ℚ) ≤ min (max (((r : ℚ) - (p : ℚ)) / (p : ℚ)) (-(1 / 2))) 1 :=
        le_min (le_max_right _ _) (by norm_num)
      have h2 : min (max (((r : ℚ) - (p : ℚ)) / (p : ℚ)) (-(1 / 2))) 1 ≤ 1 :=
        min_le_right _ _
      constructor
      · apply div_nonneg _ (by norm_num)
        linarith
      · rw [div_le_one (by norm_num)]
        linarith

/-- The mean of a nonempty list of values in `[0, 1]` lies in `[0, 1]`. -/
theorem meanQ_bounds (l : List ℚ) (hne : l ≠ [])
    (h : ∀ x ∈ l, 0 ≤ x ∧ x ≤ 1) : 0 ≤ meanQ l ∧ meanQ l ≤ 1 := by
  have hlen : 0 < (l.length : ℚ) := by
    have := List.length_pos.mpr hne
    exact_mod_cast this
  have hsum0 : 0 ≤ l.sum := List.sum_nonneg fun x hx => (h x hx).1
  have hsum1 : l.sum ≤ (l.length : ℚ) := by
    have := List.sum_le_card_nsmul l 1 fun x hx => (h x hx).2
    simpa [nsmul_eq_mul] using this
  unfold meanQ
  exact ⟨div_nonneg hsum0 (le_of_lt hlen), (div_le_one hlen).mpr hsum1⟩

/-- The population variance of a list of values in `[0, 1]` is at most
`1`: each squared deviation from the mean is at most `1`. -/
theorem varQ_le_one (l : List ℚ) (hne : l ≠ [])
    (h : ∀ x ∈ l, 0 ≤ x ∧ x ≤ 1) : varQ l ≤ 1 := by
  obtain ⟨hm0, hm1⟩ := meanQ_bounds l hne h
  have hlen : 0 < (l.length : ℚ) := by
    have := List.length_pos.mpr hne
    exact_mod_cast this
  have hsum : (l.map fun x => (x - meanQ l) ^ 2).sum ≤ (l.length : ℚ) := by
    have hb : ∀ y ∈ l.map fun x => (x - meanQ l) ^ 2, y ≤ 1 := by
      intro y hy
      obtain ⟨x, hx, rfl⟩ := List.mem_map.mp hy
      obtain ⟨hx0, hx1⟩ := h x hx
      nlinarith [sq_nonneg (x - meanQ l)]
    have := List.sum_le_card_nsmul (l.map fun x => (x - meanQ l) ^ 2) 1 hb
    simpa [nsmul_eq_mul] using this
  unfold varQ
  rw [div_le_one hlen]
  exact hsum

/-- `np.std` of a list of values in `[0, 1]` lies in `[0, 1]`. -/
theorem npStd_bounds (l : List ℚ) (hne : l ≠ [])
    (h : ∀ x ∈ l, 0 ≤ x ∧ x ≤ 1) : 0 ≤ npStd l ∧ npStd l ≤ 1 := by
  unfold npStd
  refine ⟨Real.sqrt_nonneg _, Real.sqrt_le_one.mpr ?_⟩
  exact_mod_cast varQ_le_one l hne h

/-- The confidence signal lies in `[0, 1]` when the persisted label
scores do. -/
theorem calcConfidence_bounds (scores : List ℚ) (len : ℕ)
    (h : ∀ x ∈ scores, 0 ≤ x ∧ x ≤ 1) :
    0 ≤ calcConfidence scores len ∧ calcConfidence scores len ≤ 1 := by
  have hmc : 0 ≤ (if scores.isEmpty then (1 / 2 : ℚ) else meanQ scores)
      ∧ (if scores.isEmpty then (1 / 2 : ℚ) else meanQ scores) ≤ 1 := by
    split
    · norm_num
    · rename_i hne
      refine meanQ_bounds scores ?_ h
      intro hnil
      rw [hnil] at hne
      simp at hne
  have hlc : 0 ≤ min ((len : ℚ) / 100) 1 ∧ min ((len : ℚ) / 100) 1 ≤ 1 :=
    ⟨le_min (by positivity) (by norm_num), min_le_right _ _⟩
  have hag : 0 ≤ (if 1 < scores.length then 1 - npStd scores else (1 : ℝ) / 2)
      ∧ (if 1 < scores.length then 1 - npStd scores else (1 : ℝ) / 2) ≤ 1 := by
    split
    · rename_i hlen
      have hne : scores ≠ [] := by
        intro hnil
        rw [hnil] at hlen
        simp at hlen
      obtain ⟨h0, h1⟩ := npStd_bounds scores hne h
      constructor <;> linarith
    · norm_num
  obtain ⟨hmc0, hmc1⟩ := hmc
  obtain ⟨hlc0, hlc1⟩ := hlc
  obtain ⟨hag0, hag1⟩ := hag
  have hmc0' : (0 : ℝ) ≤ ((if scores.isEmpty then (1 / 2 : ℚ) else meanQ scores : ℚ) : ℝ) := by
    exact_mod_cast hmc0
  have hmc1' : ((if scores.isEmpty then (1 / 2 : ℚ) else meanQ scores : ℚ) : ℝ) ≤ 1 := by
    exact_mod_cast hmc1
  have hlc0' : (0 : ℝ) ≤ ((min ((len : ℚ) / 100) 1 : ℚ) : ℝ) := by exact_mod_cast hlc0
  have hlc1' : ((min ((len : ℚ) / 100) 1 : ℚ) : ℝ) ≤ 1 := by exact_mod_cast hlc1
  unfold calcConfidence
  constructor <;> linarith

/-- C1: for every feedback state whose persisted label scores lie in
`[0, 1]`, the priority score computed and persisted by
`calculate_priority_score` — the weighted sum `0.30·severity +
0.25·reach + 0.20·novelty + 0.15·momentum + 0.10·confidence` of the five
signal functions — lies in `[0, 1]`. -/
theorem priority_score_bounded (inp : PriorityInput)
    (h : ∀ s ∈ inp.labelScores, 0 ≤ s ∧ s ≤ 1) :
    0 ≤ calcPriorityScore inp ∧ calcPriorityScore inp ≤ 1 := by
  obtain ⟨ha0, ha1⟩ := calcSeverity_bounds inp.labels inp.textClean
  obtain ⟨hb0, hb1⟩ := calcReach_bounds inp.source (inp.cluster.map fun c => c.1)
  obtain ⟨hc0, hc1⟩ := calcNovelty_bounds (inp.cluster.map fun c => c.2.1)
  obtain ⟨hd0, hd1⟩ := calcMomentum_bounds (inp.cluster.map fun c => (c.2.2.1, c.2.2.2))
  obtain ⟨he0, he1⟩ := calcConfidence_bounds inp.labelScores inp.textClean.length h
  have ha0' : (0 : ℝ) ≤ ((calcSeverity inp.labels inp.textClean : ℚ) : ℝ) := by
    exact_mod_cast ha0
  have ha1' : ((calcSeverity inp.labels inp.textClean : ℚ) : ℝ) ≤ 1 := by exact_mod_cast ha1
  have hb0' : (0 : ℝ) ≤ ((calcReach inp.source (inp.cluster.map fun c => c.1) : ℚ) : ℝ) := by
    exact_mod_cast hb0
  have hb1' : ((calcReach inp.source (inp.cluster.map fun c => c.1) : ℚ) : ℝ) ≤ 1 := by
    exact_mod_cast hb1
  have hc0' : (0 : ℝ) ≤ ((calcNovelty (inp.cluster.map fun c => c.2.1) : ℚ) : ℝ) := by
    exact_mod_cast hc0
  have hc1' : ((calcNovelty (inp.cluster.map fun c => c.2.1) : ℚ) : ℝ) ≤ 1 := by
    exact_mod_cast hc1
  have hd0' : (0 : ℝ)
      ≤ ((calcMomentum (inp.cluster.map fun c => (c.2.2.1, c.2.2.2)) : ℚ) : ℝ) := by
    exact_mod_cast hd0
  have hd1' : ((calcMomentum (inp.cluster.map fun c => (c.2.2.1, c.2.2.2)) : ℚ) : ℝ) ≤ 1 := by
    exact_mod_cast hd1
  unfold calcPriorityScore
  constructor <;> linarith

/-- Witness for C1: a security-labelled discord item with one label score
`0.5`, text "crash", and no cluster. -/
theorem priority_score_bounded_witness :
    (∀ s ∈ [(1 : ℚ) / 2], 0 ≤ s ∧ s ≤ 1)
    ∧ (0 ≤ calcPriorityScore ⟨"discord", ["security"], [1 / 2], "crash", none⟩
      ∧ calcPriorityScore ⟨"discord", ["security"], [1 / 2], "crash", none⟩ ≤ 1) :=
  ⟨by norm_num,
   priority_score_bounded ⟨"discord", ["security"], [1 / 2], "crash", none⟩ (by norm_num)⟩

/-! ### Bookkeeping lemmas for the clustering invariant -/

/-- One step of `memberCount`. -/
theorem memberCount_cons (it : FbItem) (rest : List FbItem) (x : ℕ) :
    memberCount (it :: rest) x
      = (if it.clusterId = some x then 1 else 0) + memberCount rest x := by
  unfold memberCount
  rw [List.filter_cons]
  by_cases h : it.clusterId = some x
  · simp [h, Nat.add_comm]
  · simp [h]

/-- One step of `setItemCluster`. -/
theorem setItemCluster_cons (it : FbItem) (rest : List FbItem) (i cid : ℕ) :
    setItemCluster (it :: rest) i cid
      = (if it.id = i then { it with clusterId := some cid } else it)
        :: setItemCluster rest i cid := rfl

/-- Writing a cluster id does not change the rows' primary keys. -/
theorem setItemCluster_id_map (items : List FbItem) (i cid : ℕ) :
    (setItemCluster items i cid).map (fun it => it.id) = items.map fun it => it.id := by
  induction items with
  | nil => rfl
  | cons it rest ih =>
    rw [setItemCluster_cons, List.map_cons, List.map_cons, ih]
    split <;> rfl

/-- Assigning a previously unassigned row to cluster `cid` does not
change any other cluster's member count. -/
theorem memberCount_set_ne (items : List FbItem) (i cid x : ℕ) (hx : x ≠ cid)
    (hun : ∀ it ∈ items, it.id = i → it.clusterId = none) :
    memberCount (setItemCluster items i cid) x = memberCount items x := by
  induction items with
  | nil => rfl
  | cons it rest ih =>
    have ih2 := ih fun a ha hai => hun a (List.mem_cons_of_mem _ ha) hai
    rw [setItemCluster_cons, memberCount_cons, memberCount_cons, ih2]
    by_cases hid : it.id = i
    · rw [if_pos hid, hun it (List.mem_cons_self _ _) hid]
      have hns : ¬ (some cid = some x) := by
        intro hcx
        exact hx (Option.some.inj hcx).symm
      simp [hns]
    · rw [if_neg hid]

/-- Assigning the rows with primary key `i` (previously unassigned) to
cluster `cid` raises its member count by the number of such rows. -/
theorem memberCount_set_self (items : List FbItem) (i cid : ℕ)
    (hun : ∀ it ∈ items, it.id = i → it.clusterId = none) :
    memberCount (setItemCluster items i cid) cid
      = memberCount items cid + items.countP (fun it => it.id = i) := by
  induction items with
  | nil => rfl
  | cons it rest ih =>
    have ih2 := ih fun a ha hai => hun a (List.mem_cons_of_mem _ ha) hai
    rw [setItemCluster_cons, memberCount_cons, memberCount_cons, List.countP_cons, ih2]
    by_cases hid : it.id = i
    · rw [if_pos hid, hun it (List.mem_cons_self _ _) hid]
      simp [hid]
      omega
    · rw [if_neg hid]
      simp [hid]
      omega

/-- Under distinct primary keys, exactly one row carries the key of a row
present in the table. -/
theorem countP_id_one (items : List FbItem) (i : ℕ)
    (hnd : (items.map fun it => it.id).Nodup)
    (it0 : FbItem) (hmem : it0 ∈ items) (hid0 : it0.id = i) :
    items.countP (fun it => it.id = i) = 1 := by
  induction items with
  | nil => cases hmem
  | cons a rest ih =>
    rw [List.map_cons, List.nodup_cons] at hnd
    rw [List.countP_cons]
    rcases List.mem_cons.mp hmem with rfl | hmem2
    · have h0 : rest.countP (fun it => it.id = i) = 0 := by
        rw [List.countP_eq_zero]
        intro b hb
        simp only [decide_eq_true_eq]
        intro hbi
        exact hnd.1 (by
          rw [hid0, ← hbi]
          exact List.mem_map_of_mem _ hb)
      simp [h0, hid0]
    · have hrest := ih hnd.2 hmem2
      have hai : ¬ a.id = i := by
        intro hai
        exact hnd.1 (by
          rw [hai, ← hid0]
          exact List.mem_map_of_mem _ hmem2)
      simp [hrest, hai]

/-- A cluster referenced by no row has member count zero. -/
theorem memberCount_eq_zero (items : List FbItem) (x : ℕ)
    (h : ∀ it ∈ items, it.clusterId ≠ some x) : memberCount items x = 0 := by
  unfold memberCount
  rw [List.length_eq_zero, List.filter_eq_nil_iff]
  intro a ha
  simpa using h a ha

/-- Creating a cluster for a previously unassigned row, and assigning
that row to it, preserves the invariant. -/
theorem inv_after_create (st : NLUState) (emb : List ℚ) (text : String) (i : ℕ)
    (hInv : Inv st)
    (it0 : FbItem) (hmem : it0 ∈ st.items) (hid0 : it0.id = i)
    (hun : ∀ it ∈ st.items, it.id = i → it.clusterId = none) :
    Inv ⟨st.clusters
          ++ [⟨st.nextClusterId, some emb, String.mk (text.toList.take 200), 1, 1⟩],
         st.nextClusterId + 1,
         setItemCluster st.items i st.nextClusterId⟩ := by
  obtain ⟨hsz, hndc, hbnd, hnz, hndi, href⟩ := hInv
  have hfresh : memberCount st.items st.nextClusterId = 0 := by
    apply memberCount_eq_zero
    intro it hit hcontra
    obtain ⟨c2, hc2, hc2id⟩ := href it hit st.nextClusterId hcontra
    have := (hbnd c2 hc2).2
    omega
  refine ⟨?_, ?_, ?_, ?_, ?_, ?_⟩
  case refine_4 =>
    show st.nextClusterId + 1 ≠ 0
    omega
  · intro c hc
    rcases List.mem_append.mp hc with hcl | hcr
    · have hlt := (hbnd c hcl).2
      show c.size = memberCount (setItemCluster st.items i st.nextClusterId) c.id
      rw [memberCount_set_ne st.items i st.nextClusterId c.id (by omega) hun]
      exact hsz c hcl
    · have hceq : c
          = ⟨st.nextClusterId, some emb, String.mk (text.toList.take 200), 1, 1⟩ := by
        simpa using hcr
      subst hceq
      show (1 : ℕ) = memberCount (setItemCluster st.items i st.nextClusterId) st.nextClusterId
      rw [memberCount_set_self st.items i st.nextClusterId hun, hfresh,
        countP_id_one st.items i hndi it0 hmem hid0]
  · rw [List.map_append, List.nodup_append]
    refine ⟨hndc, List.nodup_singleton _, ?_⟩
    intro x hx1 hx2
    obtain ⟨c2, hc2, heq⟩ := List.mem_map.mp hx1
    have hlt := (hbnd c2 hc2).2
    simp only [List.map_cons, List.map_nil, List.mem_singleton] at hx2
    have heq2 : c2.id = x := heq
    omega
  · intro c hc
    show c.id ≠ 0 ∧ c.id < st.nextClusterId + 1
    rcases List.mem_append.mp hc with hcl | hcr
    · obtain ⟨h1, h2⟩ := hbnd c hcl
      exact ⟨h1, by omega⟩
    · have hceq : c
          = ⟨st.nextClusterId, some emb, String.mk (text.toList.take 200), 1, 1⟩ := by
        simpa using hcr
      subst hceq
      show st.nextClusterId ≠ 0 ∧ st.nextClusterId < st.nextClusterId + 1
      exact ⟨hnz, by omega⟩
  · rw [setItemCluster_id_map]
    exact hndi
  · intro it hit cid hcid
    unfold setItemCluster at hit
    obtain ⟨a, ha, haeq⟩ := List.mem_map.mp hit
    by_cases hai : a.id = i
    · rw [if_pos hai] at haeq
      subst haeq
      simp only at hcid
      injection hcid with hcid
      subst hcid
      exact ⟨⟨st.nextClusterId, some emb, String.mk (text.toList.take 200), 1, 1⟩,
        List.mem_append.mpr (Or.inr (List.mem_singleton.mpr rfl)), rfl⟩
    · rw [if_neg hai] at haeq
      subst haeq
      obtain ⟨c2, hc2, hc2id⟩ := href a ha cid hcid
      exact ⟨c2, List.mem_append.mpr (Or.inl hc2), hc2id⟩

/-- C6: the claim's retryable state is unreachable, and only its
status-advancement half holds of the program.
`Initiative(..., cluster_id=…)` raises `TypeError` before `db.add` —
`cluster_id` is not among the declared columns — and the cluster lookup
raises `AttributeError` for the same reason, so no Initiative is ever
persisted, with a null external key or otherwise; both exceptions are
swallowed inside `_create_jira_issue`, and `process_actions` leaves the
initiative table unchanged and advances the item to `triaged` for every
state, trigger, configuration and external result. -/
theorem escalation_create_unreachable :
    declarativeCtorAccepts initiativeColumns initiativeCtorKwargs = false
    ∧ createNewInitiativeDyn true none "T" "D" ⟨[], 1, ⟨7, none, some (9 / 10), "new"⟩⟩
      = .error "TypeError"
    ∧ initiativeClassAttr "cluster_id" = .error "AttributeError"
    ∧ ∀ (jiraEnabled : Bool) (threshold : ℚ) (spike : Bool) (createKey : Option String)
        (title descr : String) (st : ActionsState),
      (processActionsDyn jiraEnabled threshold spike createKey title descr st).initiatives
        = st.initiatives
      ∧ (processActionsDyn jiraEnabled threshold spike createKey title descr st).item.status
        = "triaged" := by
  refine ⟨rfl, rfl, rfl, ?_⟩
  intro jiraEnabled threshold spike createKey title descr st
  have hacc : declarativeCtorAccepts initiativeColumns initiativeCtorKwargs = false := rfl
  have hctor : createNewInitiativeDyn jiraEnabled createKey title descr st
      = .error "TypeError" := by
    unfold createNewInitiativeDyn
    rw [hacc]
    simp
  have hattr : initiativeClassAttr "cluster_id" = .error "AttributeError" := rfl
  have hno : createJiraIssueDyn jiraEnabled createKey title descr st = st := by
    unfold createJiraIssueDyn
    cases hcid : st.item.clusterId with
    | none => simp [hctor]
    | some cid => simp [hattr]
  have hbr : (if shouldCreateJira jiraEnabled threshold spike st.item then
      createJiraIssueDyn jiraEnabled createKey title descr st else st) = st := by
    split
    · exact hno
    · rfl
  unfold processActionsDyn
  dsimp only
  rw [hbr]
  exact ⟨rfl, rfl⟩

/-! ### The clustering invariant over the reachable states -/

/-- Reduction of the `Except` bind on a success. -/
theorem bind_ok_eq {α β : Type} (a : α) (f : α → Except String β) :
    (Bind.bind (Except.ok a : Except String α) f) = f a := rfl

/-- Reduction of the `Except` bind on an exception. -/
theorem bind_error_eq {α β : Type} (e : String) (f : α → Except String β) :
    (Bind.bind (Except.error e : Except String α) f)
      = (Except.error e : Except String β) := rfl

/-- `embed_text` on a string argument never raises. -/
theorem embedText_pstr_ok (enc : String → List ℚ) (dim : ℕ) (s : String) :
    ∃ v, embedText enc dim (.pstr s) = .ok v := by
  by_cases h1 : s = ""
  · refine ⟨List.replicate dim 0, ?_⟩
    unfold embedText
    rw [show pyNot (.pstr s) = .ok (decide (s = "")) from rfl, bind_ok_eq, h1]
    rfl
  · by_cases h2 : isBlank s
    · refine ⟨List.replicate dim 0, ?_⟩
      unfold embedText
      rw [show pyNot (.pstr s) = .ok (decide (s = "")) from rfl, bind_ok_eq,
        if_neg (by simpa using h1),
        show pyStripEmpty (.pstr s) = .ok (isBlank s) from rfl, bind_ok_eq,
        if_pos h2]
      rfl
    · refine ⟨enc s, ?_⟩
      unfold embedText
      rw [show pyNot (.pstr s) = .ok (decide (s = "")) from rfl, bind_ok_eq,
        if_neg (by simpa using h1),
        show pyStripEmpty (.pstr s) = .ok (isBlank s) from rfl, bind_ok_eq,
        if_neg (by simpa using h2)]
      rfl

/-- Python `not` on an array of two or more elements raises (numpy's
ambiguous truth value). -/
theorem pyNot_parr_error (v : List ℚ) (h : 2 ≤ v.length) :
    pyNot (.parr v) = .error "ValueError" := by
  rcases v with _ | ⟨x, _ | ⟨y, rest⟩⟩
  · simp at h
  · simp at h
  · rfl

/-- `embed_text` on an array of two or more elements raises. -/
theorem embedText_parr_error (enc : String → List ℚ) (dim : ℕ) (v : List ℚ)
    (h : 2 ≤ v.length) :
    embedText enc dim (.parr v) = .error "ValueError" := by
  unfold embedText
  rw [pyNot_parr_error v h, bind_error_eq]

/-- `similarity(text, centroid)` raises whenever the centroid is a
vector of two or more elements. -/
theorem similarityDyn_parr_error (enc : String → List ℚ) (dim : ℕ) (s : String)
    (v : List ℚ) (h : 2 ≤ v.length) :
    similarityDyn enc dim (.pstr s) (.parr v) = .error "ValueError" := by
  obtain ⟨e1, he1⟩ := embedText_pstr_ok enc dim s
  unfold similarityDyn
  rw [he1, bind_ok_eq, embedText_parr_error enc dim v h, bind_error_eq]

/-- The selection loop raises on its very first cluster when that
cluster's centroid has two or more elements. -/
theorem findBestDyn_head_error (enc : String → List ℚ) (dim : ℕ) (text : String)
    (c : ClusterRec) (rest : List ClusterRec) (bs : ℝ) (bc : Option ClusterRec)
    (v : List ℚ) (hv : c.centroid = some v) (hlen : 2 ≤ v.length) :
    findBestDyn enc dim text (c :: rest) (bs, bc) = .error "ValueError" := by
  simp only [findBestDyn, hv]
  rw [similarityDyn_parr_error enc dim text v hlen, bind_error_eq]

/-- `_assign_to_cluster` on an empty cluster table creates a cluster
without any similarity call. -/
theorem assignToClusterDyn_empty (enc : String → List ℚ) (dim : ℕ) (emb : List ℚ)
    (text : String) (st : NLUState) (hcl : st.clusters = []) :
    assignToClusterDyn enc dim emb text st = .ok (createCluster emb text st) := by
  unfold assignToClusterDyn
  rw [hcl]
  rfl

/-- `_assign_to_cluster` raises as soon as any cluster with a
multi-element centroid heads the table. -/
theorem assignToClusterDyn_error (enc : String → List ℚ) (dim : ℕ) (emb : List ℚ)
    (text : String) (st : NLUState) (c : ClusterRec) (rest : List ClusterRec)
    (hcl : st.clusters = c :: rest) (v : List ℚ) (hv : c.centroid = some v)
    (hlen : 2 ≤ v.length) :
    assignToClusterDyn enc dim emb text st = .error "ValueError" := by
  unfold assignToClusterDyn
  rw [hcl, if_neg (by simp),
    findBestDyn_head_error enc dim text c rest 0 none v hv hlen, bind_error_eq]

/-- Appending an unassigned row changes no cluster's member count. -/
theorem memberCount_append_none (items : List FbItem) (it : FbItem) (x : ℕ)
    (h : it.clusterId = none) :
    memberCount (items ++ [it]) x = memberCount items x := by
  unfold memberCount
  rw [List.filter_append]
  have hnil : List.filter (fun it2 => it2.clusterId = some x) [it] = [] := by
    simp [h]
  rw [hnil, List.append_nil]

/-- Ingestion — a fresh-id row with a null `cluster_id` — preserves the
reachable-state invariant. -/
theorem invD_ingest (dim : ℕ) (st : NLUState) (it : FbItem)
    (h : InvD dim st) (hnone : it.clusterId = none)
    (hfresh : ∀ it2 ∈ st.items, it2.id ≠ it.id) :
    InvD dim ⟨st.clusters, st.nextClusterId, st.items ++ [it]⟩ := by
  obtain ⟨⟨hsz, hndc, hbnd, hnz, hndi, href⟩, hcent⟩ := h
  refine ⟨⟨?_, hndc, hbnd, hnz, ?_, ?_⟩, hcent⟩
  · intro c hc
    show c.size = memberCount (st.items ++ [it]) c.id
    rw [memberCount_append_none st.items it c.id hnone]
    exact hsz c hc
  · show ((st.items ++ [it]).map fun it2 => it2.id).Nodup
    rw [List.map_append, List.nodup_append]
    refine ⟨hndi, List.nodup_singleton _, ?_⟩
    intro x hx1 hx2
    obtain ⟨a, ha, heq⟩ := List.mem_map.mp hx1
    have heq2 : a.id = x := heq
    simp only [List.map_cons, List.map_nil, List.mem_singleton] at hx2
    exact hfresh a ha (by rw [heq2, hx2])
  · intro it2 hit2 cid hcid
    rcases List.mem_append.mp hit2 with h1 | h1
    · exact href it2 h1 cid hcid
    · have hit : it2 = it := by simpa using h1
      subst hit
      rw [hnone] at hcid
      cases hcid

/-- One NLU step — `process_feedback` on any row id — preserves the
reachable-state invariant: with an empty cluster table the create path
adds a size-1 cluster and assigns the (necessarily unassigned) row;
with any existing cluster the first similarity call raises and the state
is unchanged. -/
theorem invD_processOneDyn (enc : String → List ℚ) (dim : ℕ) (emb : List ℚ) (i : ℕ)
    (st : NLUState) (hdim : 2 ≤ dim) (hemb : emb.length = dim)
    (h : InvD dim st) : InvD dim (processOneDyn enc dim emb i st) := by
  obtain ⟨hInv, hcent⟩ := h
  unfold processOneDyn
  cases hfind : st.items.find? (fun it => it.id = i) with
  | none => exact ⟨hInv, hcent⟩
  | some it =>
    dsimp only
    cases htc : it.textClean with
    | none => exact ⟨hInv, hcent⟩
    | some text =>
      dsimp only
      by_cases hemp : text = ""
      · rw [if_pos hemp]
        exact ⟨hInv, hcent⟩
      · rw [if_neg hemp]
        cases hcl : st.clusters with
        | nil =>
          rw [assignToClusterDyn_empty enc dim emb text st hcl]
          dsimp only
          have hnz : st.nextClusterId ≠ 0 := hInv.2.2.2.1
          unfold createCluster
          dsimp only
          rw [if_pos hnz]
          have hmem : it ∈ st.items := List.mem_of_find?_eq_some hfind
          have hid : it.id = i := by
            have := List.find?_some hfind
            simpa using this
          have hun : ∀ it2 ∈ st.items, it2.id = i → it2.clusterId = none := by
            intro it2 hit2 _
            cases hclid : it2.clusterId with
            | none => rfl
            | some cid =>
              obtain ⟨c, hc, _⟩ := hInv.2.2.2.2.2 it2 hit2 cid hclid
              rw [hcl] at hc
              cases hc
          constructor
          · exact inv_after_create st emb text i hInv it hmem hid hun
          · intro c hcmem
            rcases List.mem_append.mp hcmem with h1 | h1
            · exact hcent c h1
            · have hceq : c
                  = ⟨st.nextClusterId, some emb, String.mk (text.toList.take 200), 1, 1⟩ := by
                simpa using h1
              subst hceq
              exact ⟨emb, rfl, hemb⟩
        | cons c rest =>
          have hcmem : c ∈ st.clusters := by
            rw [hcl]
            exact List.mem_cons_self c rest
          obtain ⟨v, hv, hvlen⟩ := hcent c hcmem
          rw [assignToClusterDyn_error enc dim emb text st c rest hcl v hv (by omega)]
          exact ⟨hInv, hcent⟩

/-- Every state reachable by the pipeline's durable operations satisfies
the invariant. -/
theorem invD_reach (enc : String → List ℚ) (dim : ℕ) (st : NLUState)
    (hdim : 2 ≤ dim) (hr : ReachDyn enc dim st) : InvD dim st := by
  induction hr with
  | init =>
    refine ⟨by decide, ?_⟩
    intro c hc
    cases hc
  | ingest st2 it hr2 hnone hfresh ih => exact invD_ingest dim st2 it ih hnone hfresh
  | nlu st2 emb i hr2 hemb ih => exact invD_processOneDyn enc dim emb i st2 hdim hemb ih

/-- C7: in every database state reachable by the pipeline's operations —
ingestion of fresh rows, NLU processing of any row with an embedding of
the model's dimension, the poll loop free to re-select already-clustered
rows — every cluster's `size` equals the number of FeedbackItems whose
`clusterId` references it.  The one reachable kind of cluster creation
(empty cluster table) adds a size-1 cluster and assigns exactly one
item to it; a matching Assign — which would increment `size` by one and
set one item's `clusterId` — is never reached, because the similarity
call raises `ValueError` whenever a centroid exists (claim C2), leaving
the state unchanged.  `2 ≤ dim` is the source's fixed embedding
dimension (384 for all-MiniLM-L6-v2). -/
theorem cluster_size_invariant (enc : String → List ℚ) (dim : ℕ) (st : NLUState)
    (hdim : 2 ≤ dim) (hr : ReachDyn enc dim st) :
    ∀ c ∈ st.clusters, c.size = memberCount st.items c.id :=
  (invD_reach enc dim st hdim hr).1.1

/-- Witness for C7: the concrete two-operation trace — ingest row 1,
then run the NLU worker on it with a 2-dimensional embedding — reaches a
state whose single cluster has size 1 and exactly one member. -/
theorem cluster_size_invariant_witness :
    2 ≤ 2
    ∧ (⟨1, some [1, 0], "t", 1, 1⟩ : ClusterRec)
        ∈ (processOneDyn (fun _ => [1, 0]) 2 [1, 0] 1
            ⟨[], 1, [⟨1, some "t", none⟩]⟩).clusters
    ∧ (⟨1, some [1, 0], "t", 1, 1⟩ : ClusterRec).size
        = memberCount (processOneDyn (fun _ => [1, 0]) 2 [1, 0] 1
            ⟨[], 1, [⟨1, some "t", none⟩]⟩).items
          (⟨1, some [1, 0], "t", 1, 1⟩ : ClusterRec).id := by
  have hmem : (⟨1, some [1, 0], "t", 1, 1⟩ : ClusterRec)
      ∈ (processOneDyn (fun _ => [1, 0]) 2 [1, 0] 1
          ⟨[], 1, [⟨1, some "t", none⟩]⟩).clusters :=
    List.mem_cons_self _ _
  refine ⟨by decide, hmem, ?_⟩
  exact cluster_size_invariant (fun _ => [1, 0]) 2 _ (by decide)
    (ReachDyn.nlu ⟨[], 1, [⟨1, some "t", none⟩]⟩ [1, 0] 1
      (ReachDyn.ingest ⟨[], 1, []⟩ ⟨1, some "t", none⟩ ReachDyn.init rfl
        (fun it2 hit2 => absurd hit2 (List.not_mem_nil it2)))
      rfl)
    ⟨1, some [1, 0], "t", 1, 1⟩ hmem

end ProductSync
